import Mathlib

/-!
Verification of the request-orchestration agent of the TextWiz AI app
(`Reply_Specialist_AI.py`, class `GeminiAgentSystem`).

The Python code is shallowly embedded as follows.

* Session state (`st.session_state.request_cache`, `request_history`) becomes
  an explicit `AgentState` record threaded through every operation.  Wall-clock
  time (`datetime.now()`) is a natural number of seconds stored in the state;
  `time.sleep(d)` advances it by `d` and records `d` in a `sleeps` trace so
  that backoff behaviour is observable.  Each primary-provider attempt index is
  recorded in a `primary_calls` trace.
* The Gemini client (`genai.configure` / `GenerativeModel.generate_content`)
  is an external network call; it is abstracted as a function
  `primary : String → Nat → Except String String` from (optimized prompt,
  attempt index) to either a response text or a raised exception's message.
  The optional image argument only selects which overload of
  `generate_content` is invoked, so it is subsumed by this abstraction.
  Likewise the Ollama HTTP call `generate_with_ollama` is abstracted as
  `ollamaCall : String → String → Except String String` (model name, prompt).
* `hashlib.md5(...).hexdigest()` is an external hash; it is abstracted as an
  arbitrary function `md5 : String → String` applied to the exact pre-hash
  string the source builds.
* Python strings are Lean `String`s; Python slicing/`in`/`replace`/`lower`
  operate on code points, modelled on `String.data : List Char`.
-/

namespace TextWiz

/-- Python `s.lower()` (code-point-wise; the messages classified by the source
are ASCII). -/
def lowerStr (s : String) : String := ⟨s.data.map Char.toLower⟩

/-- Python `pat in s` substring test. -/
def hasSub (s pat : String) : Bool := decide (pat.data <:+: s.data)

/-- Python truthiness of a value that is either `None` or a string:
`None` and `""` are falsy. -/
def truthyOpt : Option String → Bool
  | none => false
  | some s => s != ""

/-- Python `s[:n]` on code points. -/
def strTake (s : String) (n : Nat) : String := ⟨s.data.take n⟩

/-- Python `str.replace(p, r)` on code-point lists: replace every
non-overlapping occurrence of `p`, scanning left to right.  (Python's special
behaviour for an empty pattern is irrelevant here: the guard returns `s`
unchanged, and the only pattern used below is nonempty.) -/
def replaceAll (p r s : List Char) : List Char :=
  if hp : p = [] then s
  else
    match s with
    | [] => []
    | c :: rest =>
      if p <+: c :: rest then r ++ replaceAll p r ((c :: rest).drop p.length)
      else c :: replaceAll p r rest
termination_by s.length
decreasing_by
  · simp only [List.length_drop, List.length_cons]
    have hl : 0 < p.length := List.length_pos.mpr hp
    omega
  · simp [List.length_cons]

/-- Python `str.replace` lifted to `String`. -/
def strReplace (s pat rep : String) : String := ⟨replaceAll pat.data rep.data s.data⟩

/-- One entry of `st.session_state.request_cache`:
`{'response': ..., 'timestamp': ...}`. -/
structure CacheEntry where
  response : String
  timestamp : Nat
deriving DecidableEq, Repr

/-- The session state mutated by the agent, plus the observation traces
(`sleeps`, `primary_calls`) described in the module docstring. -/
structure AgentState where
  request_cache : String → Option CacheEntry
  request_history : List Nat
  time : Nat
  sleeps : List Nat
  primary_calls : List Nat

/-- The per-instance configuration set in `GeminiAgentSystem.__init__` and (for
`ollama_model`) by the sidebar. -/
structure AgentConfig where
  primary_model : String
  max_retries : Nat
  base_delay : Nat
  use_ollama_fallback : Bool
  ollama_model : Option String

/-- `GeminiAgentSystem.__init__`, with `ollama_model` as later (re)bound by the
sidebar (`None` when Ollama is unavailable). -/
def initialAgent (ollama : Option String) : AgentConfig :=
  { primary_model := "gemini-2.0-flash-exp"
    max_retries := 3
    base_delay := 3
    use_ollama_fallback := false
    ollama_model := ollama }

/-- `time.sleep(d)`: advances the clock and records the sleep. -/
def sleepFor (st : AgentState) (d : Nat) : AgentState :=
  { st with time := st.time + d, sleeps := st.sleeps ++ [d] }

/-- `GeminiAgentSystem.get_cache_key`: MD5 of `f"{prompt}_{mood}_{length}"`.
At its only call site `mood` receives the model id and `length` the suggestion
count. -/
def get_cache_key (md5 : String → String) (prompt mood : String) (length : Nat) : String :=
  md5 (prompt ++ "_" ++ mood ++ "_" ++ toString length)

/-- `GeminiAgentSystem.check_cache`: the stored response, provided the entry is
younger than one hour; otherwise `None`.  A pure lookup: it never mutates the
cache. -/
def check_cache (st : AgentState) (cache_key : String) : Option String :=
  match st.request_cache cache_key with
  | some cached_data =>
    if st.time - cached_data.timestamp < 3600 then some cached_data.response else none
  | none => none

/-- `GeminiAgentSystem.save_to_cache`: unconditional overwrite, timestamp
`datetime.now()`. -/
def save_to_cache (st : AgentState) (cache_key response : String) : AgentState :=
  { st with request_cache :=
      fun k => if k = cache_key then some ⟨response, st.time⟩ else st.request_cache k }

/-- The pruned request log kept by `rate_limit_check`: entries from the last
minute. -/
def prunedHistory (st : AgentState) : List Nat :=
  st.request_history.filter (fun req_time => st.time - req_time < 60)

/-- `GeminiAgentSystem.rate_limit_check`: prunes the log to the last minute
(this mutation persists), then denies with the residual wait when 50 or more
entries remain. -/
def rate_limit_check (st : AgentState) : AgentState × Bool × Nat :=
  let now := st.time
  let history := st.request_history.filter (fun req_time => now - req_time < 60)
  let st1 := { st with request_history := history }
  if 50 ≤ history.length then (st1, false, 60 - (now - history.headD 0))
  else (st1, true, 0)

/-- `GeminiAgentSystem.log_request`: append the current timestamp. -/
def log_request (st : AgentState) : AgentState :=
  { st with request_history := st.request_history ++ [st.time] }

/-- The verbose instruction substring rewritten by `optimize_prompt`. -/
def verbose_phrase : String :=
  "Add a brief explanation (1 line) after each suggestion about why it works"

/-- Its shorter replacement. -/
def brief_phrase : String := "Add very brief reason"

/-- `GeminiAgentSystem.optimize_prompt`. -/
def optimize_prompt (prompt : String) (num_suggestions : Nat) : String :=
  if num_suggestions > 3 then strReplace prompt verbose_phrase brief_phrase
  else prompt

/-- `GeminiAgentSystem.exponential_backoff`. -/
def exponential_backoff (cfg : AgentConfig) (attempt : Nat) : Nat :=
  min (cfg.base_delay * 2 ^ attempt) 60

/-- Last-attempt quota test: `"429" in msg or "quota" in msg.lower()`. -/
def quota_signal (msg : String) : Bool :=
  hasSub msg "429" || hasSub (lowerStr msg) "quota"

/-- Last-attempt safety test: `"blocked" in msg.lower() or "safety" in msg.lower()`. -/
def safety_signal (msg : String) : Bool :=
  hasSub (lowerStr msg) "blocked" || hasSub (lowerStr msg) "safety"

/-- Last-attempt credential test: `"api" in msg.lower() and "key" in msg.lower()`. -/
def apikey_signal (msg : String) : Bool :=
  hasSub (lowerStr msg) "api" && hasSub (lowerStr msg) "key"

/-- Early-attempt quota test (line 225 of the source; it additionally checks
`"resource_exhausted"`). -/
def quota_retry_signal (msg : String) : Bool :=
  hasSub msg "429" || hasSub (lowerStr msg) "quota" || hasSub (lowerStr msg) "resource_exhausted"

/-- Early-attempt rate test: `"rate" in msg.lower() or "limit" in msg.lower()`. -/
def rate_retry_signal (msg : String) : Bool :=
  hasSub (lowerStr msg) "rate" || hasSub (lowerStr msg) "limit"

/-- One primary attempt: the provider either raises (message) or returns a
response; a blocked/empty `response.text` is turned into the exception
`"Response was blocked or empty"` inside the same `try`. -/
def attemptPrimary (primary : String → Nat → Except String String)
    (optimized_prompt : String) (attempt : Nat) : Except String String :=
  match primary optimized_prompt attempt with
  | .ok t => if t = "" then .error "Response was blocked or empty" else .ok t
  | .error msg => .error msg

/-- How the `for attempt in range(max_retries)` loop of `generate_with_retry`
terminates: a successful return, a fall-through to the Ollama step (normal
exhaustion or `break`), or a raised exception. -/
inductive RetryOutcome where
  | success (st : AgentState) (text source : String)
  | toFallback (st : AgentState) (last_error : Option String)
  | raised (st : AgentState) (message : String)

/-- The state carried by a loop outcome. -/
def RetryOutcome.state : RetryOutcome → AgentState
  | .success st _ _ => st
  | .toFallback st _ => st
  | .raised st _ => st

/-- The retry loop of `generate_with_retry` (source lines 180–247).
`remaining` is `max_retries - attempt`; the top-level call uses
`remaining = cfg.max_retries`, `attempt = 0`, mirroring
`for attempt in range(self.max_retries)`.  On a non-final attempt every error
branch sleeps `exponential_backoff(attempt)` and retries (the three `elif`
branches of the source have identical bodies); on the final attempt the
message is classified exactly as in the source's `elif` chain. -/
def retryAttempts (cfg : AgentConfig) (primary : String → Nat → Except String String)
    (cache_key optimized_prompt : String) :
    Nat → Nat → Option String → AgentState → RetryOutcome
  | 0, _, last_error, st => .toFallback st last_error
  | remaining + 1, attempt, _, st =>
    let st := { st with primary_calls := st.primary_calls ++ [attempt] }
    match attemptPrimary primary optimized_prompt attempt with
    | .ok result =>
      let st := log_request st
      let st := save_to_cache st cache_key result
      .success st result cfg.primary_model
    | .error error_msg =>
      let last_error := some error_msg
      if attempt < cfg.max_retries - 1 then
        if quota_retry_signal error_msg then
          retryAttempts cfg primary cache_key optimized_prompt remaining (attempt + 1)
            last_error (sleepFor st (exponential_backoff cfg attempt))
        else if rate_retry_signal error_msg then
          retryAttempts cfg primary cache_key optimized_prompt remaining (attempt + 1)
            last_error (sleepFor st (exponential_backoff cfg attempt))
        else
          retryAttempts cfg primary cache_key optimized_prompt remaining (attempt + 1)
            last_error (sleepFor st (exponential_backoff cfg attempt))
      else
        if quota_signal error_msg then
          if truthyOpt cfg.ollama_model then .toFallback st last_error
          else
            retryAttempts cfg primary cache_key optimized_prompt remaining (attempt + 1)
              last_error st
        else if safety_signal error_msg then
          if truthyOpt cfg.ollama_model then .toFallback st last_error
          else .raised st "Content blocked by safety filters"
        else if apikey_signal error_msg then
          .raised st "Invalid API key. Please check your Gemini API key."
        else
          retryAttempts cfg primary cache_key optimized_prompt remaining (attempt + 1)
            last_error st

/-- The provenance note appended to a successful Ollama fallback response. -/
def ollama_note : String := "\n\n*Generated using Ollama (local)*"

/-- The final aggregated failure message (source lines 270–281); the Python
truthiness of `last_error[:200] if last_error else 'Unknown error'` included. -/
def error_details (last_error : Option String) : String :=
  "\n**Unable to generate replies.**\n\n**Last error:** " ++
  (match last_error with
   | some e => if e != "" then strTake e 200 else "Unknown error"
   | none => "Unknown error") ++
  "\n\n**Suggestions:**\n1. Wait a moment and try again\n2. Check your API key at: https://aistudio.google.com/apikey\n3. Reduce the number of suggestions\n4. Install Ollama for offline mode: https://ollama.com\n"

/-- Steps 5–6 of `generate_with_retry` (source lines 249–281): how each loop
outcome is turned into the final result — a success or raise is passed
through, and a fall-through tries the Ollama fallback when one is configured,
otherwise raises the aggregated error. -/
def fallbackStep (cfg : AgentConfig) (ollamaCall : String → String → Except String String)
    (cache_key optimized_prompt : String) :
    RetryOutcome → AgentState × Except String (String × String)
  | .success st3 result source => (st3, .ok (result, source))
  | .raised st3 msg => (st3, .error msg)
  | .toFallback st3 last_error =>
    if truthyOpt cfg.ollama_model then
      let m := cfg.ollama_model.getD ""
      match ollamaCall m optimized_prompt with
      | .ok result =>
        if result != "" then
          let result_with_note := result ++ ollama_note
          let st4 := save_to_cache st3 cache_key result_with_note
          (st4, .ok (result_with_note, "Ollama (" ++ m ++ ")"))
        else (st3, .error (error_details last_error))
      | .error _ => (st3, .error (error_details last_error))
    else (st3, .error (error_details last_error))

/-- `GeminiAgentSystem.generate_with_retry` (source lines 159–281): cache
lookup (Python truthiness on the result), rate gate (a deliberate stall, not a
rejection), prompt optimization, primary retry loop, conditional Ollama
fallback, aggregated failure.  Returns the final state together with either
the raised exception's message or the `(text, source)` pair. -/
def generate_with_retry (cfg : AgentConfig) (md5 : String → String)
    (primary : String → Nat → Except String String)
    (ollamaCall : String → String → Except String String)
    (prompt : String) (num_suggestions : Nat) (st : AgentState) :
    AgentState × Except String (String × String) :=
  let cache_key := get_cache_key md5 prompt cfg.primary_model num_suggestions
  let cached_response := check_cache st cache_key
  if truthyOpt cached_response then (st, .ok (cached_response.getD "", "cache"))
  else
    let rl := rate_limit_check st
    let st1 := rl.1
    let st2 := if rl.2.1 then st1 else sleepFor st1 rl.2.2
    let optimized_prompt := optimize_prompt prompt num_suggestions
    fallbackStep cfg ollamaCall cache_key optimized_prompt
      (retryAttempts cfg primary cache_key optimized_prompt cfg.max_retries 0 none st2)

/-! ### Concrete states used by witnesses -/

/-- A fresh session: empty cache, empty request log, clock at `0`. -/
def emptyState : AgentState := ⟨fun _ => none, [], 0, [], []⟩

/-- A session whose log holds 50 requests made 5 seconds ago. -/
def rateState : AgentState := ⟨fun _ => none, List.replicate 50 100, 105, [], []⟩

/-- A session whose cache holds a fresh entry with an empty response text for
the fingerprint of prompt `"p"` with 3 suggestions (hash abstracted as `id`). -/
def emptyCachedState : AgentState :=
  ⟨fun k => if k = get_cache_key id "p" "gemini-2.0-flash-exp" 3 then some ⟨"", 0⟩ else none,
   [], 10, [], []⟩

/-! ### Theorems -/

/-- C7: for every natural attempt index `i`, the backoff delay equals
`min(baseDelay * 2^i, 60)`; with the configured `baseDelay = 3` this gives
`delay(0)=3`, `delay(1)=6`, `delay(2)=12`, and `delay(6)=60` (capped). -/
theorem c7_backoff_formula (ollama : Option String) :
    (∀ i : Nat, exponential_backoff (initialAgent ollama) i = min (3 * 2 ^ i) 60) ∧
    exponential_backoff (initialAgent ollama) 0 = 3 ∧
    exponential_backoff (initialAgent ollama) 1 = 6 ∧
    exponential_backoff (initialAgent ollama) 2 = 12 ∧
    exponential_backoff (initialAgent ollama) 6 = 60 :=
  ⟨fun _ => rfl, rfl, rfl, rfl, rfl⟩

/-- C9: `get_cache_key` joins the three fields with an ambiguous underscore
separator before hashing, so the distinct triples `("a_b", "m", n)` and
`("a", "b_m", n)` produce the same pre-hash string and hence the same
fingerprint for every hash function `md5`; the fingerprint function is not
injective on triples. -/
theorem c9_cache_key_not_injective (md5 : String → String) (n : Nat) :
    get_cache_key md5 "a_b" "m" n = get_cache_key md5 "a" "b_m" n ∧
    (("a_b", "m", n) : String × String × Nat) ≠ ("a", "b_m", n) ∧
    ¬ Function.Injective (fun t : String × String × Nat => get_cache_key md5 t.1 t.2.1 t.2.2) := by
  refine ⟨rfl, ?_, ?_⟩
  · intro h
    have h1 : ("a_b" : String) = "a" := congrArg Prod.fst h
    exact absurd h1 (by decide)
  · intro hinj
    have h := @hinj ("a_b", "m", n) ("a", "b_m", n) rfl
    have h1 : ("a_b" : String) = "a" := congrArg Prod.fst h
    exact absurd h1 (by decide)

/-- C5: `save_to_cache k r` followed immediately by `check_cache k` returns
`r`; once more than one hour has elapsed, `check_cache k` returns `none` while
the entry itself is still physically present in the cache map (`check_cache`
is a pure lookup and never deletes entries). -/
theorem c5_cache_roundtrip_ttl (st : AgentState) (k r : String) (d : Nat) (hd : 3600 < d) :
    check_cache (save_to_cache st k r) k = some r ∧
    check_cache { save_to_cache st k r with time := st.time + d } k = none ∧
    ({ save_to_cache st k r with time := st.time + d } : AgentState).request_cache k
      = some ⟨r, st.time⟩ := by
  refine ⟨?_, ?_, ?_⟩
  · simp [check_cache, save_to_cache]
  · have hlate : ¬ (st.time + d - st.time < 3600) := by omega
    simp [check_cache, save_to_cache, hlate]
    omega
  · simp [save_to_cache]

/-- C5 witness: a concrete round trip with the clock advanced 3601 seconds. -/
theorem c5_witness :
    3600 < 3601 ∧
    (check_cache (save_to_cache emptyState "k" "r") "k" = some "r" ∧
     check_cache { save_to_cache emptyState "k" "r" with time := emptyState.time + 3601 } "k"
       = none ∧
     ({ save_to_cache emptyState "k" "r" with time := emptyState.time + 3601 }
       : AgentState).request_cache "k" = some ⟨"r", emptyState.time⟩) :=
  ⟨by decide, c5_cache_roundtrip_ttl emptyState "k" "r" 3601 (by decide)⟩

/-- `rate_limit_check` admits when fewer than 50 fresh entries remain. -/
theorem rate_limit_check_small (st : AgentState) (h : (prunedHistory st).length < 50) :
    (rate_limit_check st).2 = (true, 0) := by
  simp only [rate_limit_check]
  split
  next hcond => exact absurd hcond (Nat.not_le.mpr h)
  next hcond => rfl

/-- `rate_limit_check` denies with the residual wait when 50 or more fresh
entries remain. -/
theorem rate_limit_check_deny (st : AgentState) (h : 50 ≤ (prunedHistory st).length) :
    (rate_limit_check st).2 = (false, 60 - (st.time - (prunedHistory st).headD 0)) := by
  simp only [rate_limit_check]
  split
  next hcond => rfl
  next hcond => exact absurd h hcond

/-- C6: `rate_limit_check` first prunes the log to entries younger than 60
seconds, admits with `(true, 0)` when fewer than 50 remain, and otherwise
denies with `waitSeconds = 60 - secondsSince(oldestEntry)` (the head of the
chronologically sorted log is the oldest remaining entry).  In particular with
50 logged requests all at most 10 seconds old it denies with a positive wait,
and after a further 61 seconds it admits. -/
theorem c6_rate_limit (st : AgentState) (hs : st.request_history.Pairwise (· ≤ ·)) :
    (rate_limit_check st).1.request_history = prunedHistory st ∧
    ((prunedHistory st).length < 50 → (rate_limit_check st).2 = (true, 0)) ∧
    (50 ≤ (prunedHistory st).length →
      (rate_limit_check st).2 = (false, 60 - (st.time - (prunedHistory st).headD 0)) ∧
      ∀ x ∈ prunedHistory st, (prunedHistory st).headD 0 ≤ x) ∧
    ((st.request_history.length = 50 ∧
        ∀ t ∈ st.request_history, t ≤ st.time ∧ st.time - t ≤ 10) →
      ((rate_limit_check st).2.1 = false ∧ 0 < (rate_limit_check st).2.2) ∧
      ∀ d, 61 ≤ d → (rate_limit_check { st with time := st.time + d }).2 = (true, 0)) := by
  refine ⟨?_, fun h => rate_limit_check_small st h, fun h => ⟨rate_limit_check_deny st h, ?_⟩, ?_⟩
  · simp only [rate_limit_check, prunedHistory]
    split <;> rfl
  · have hp : (prunedHistory st).Pairwise (· ≤ ·) := List.Pairwise.filter _ hs
    intro x hx
    cases hpr : prunedHistory st with
    | nil => rw [hpr] at hx; simp at hx
    | cons a l =>
      rw [hpr] at hx hp
      simp only [List.headD_cons]
      rcases List.mem_cons.mp hx with h1 | h1
      · exact h1 ▸ le_refl a
      · exact List.rel_of_pairwise_cons hp h1
  · rintro ⟨hlen, hages⟩
    have hall : prunedHistory st = st.request_history := by
      unfold prunedHistory
      rw [List.filter_eq_self]
      intro a ha
      have h := hages a ha
      simp only [decide_eq_true_eq]
      omega
    have hne : st.request_history ≠ [] := by
      intro hnil; rw [hnil] at hlen; simp at hlen
    have hmem : (prunedHistory st).headD 0 ∈ st.request_history := by
      rw [hall]
      cases hh : st.request_history with
      | nil => exact absurd hh hne
      | cons a l => simp
    have h50 : 50 ≤ (prunedHistory st).length := by rw [hall, hlen]
    have heq := rate_limit_check_deny st h50
    refine ⟨⟨?_, ?_⟩, ?_⟩
    · rw [heq]
    · rw [heq]
      have hb := hages _ hmem
      show 0 < 60 - (st.time - (prunedHistory st).headD 0)
      omega
    · intro d hd
      have hz : prunedHistory { st with time := st.time + d } = [] := by
        simp only [prunedHistory]
        rw [List.filter_eq_nil_iff]
        intro a ha
        have h := hages a ha
        simp only [decide_eq_true_eq]
        omega
      exact rate_limit_check_small _ (by rw [hz]; decide)

/-- C6 witness: 50 requests logged 5 seconds ago deny with a positive wait;
61 seconds later the gate admits. -/
theorem c6_witness :
    (List.replicate 50 (100 : Nat)).Pairwise (· ≤ ·) ∧
    ((rate_limit_check rateState).2.1 = false ∧ 0 < (rate_limit_check rateState).2.2) ∧
    (rate_limit_check { rateState with time := rateState.time + 61 }).2 = (true, 0) := by
  have h := c6_rate_limit rateState (by decide)
  have hsc := h.2.2.2 ⟨by decide, by decide⟩
  exact ⟨by decide, hsc.1, hsc.2 61 (by decide)⟩

/-! ### String-replacement theory for the prompt optimizer -/

/-- `replaceAll` on the empty input. -/
theorem replaceAll_nil (p r : List Char) (hp : p ≠ []) : replaceAll p r [] = [] := by
  unfold replaceAll
  rw [dif_neg hp]

/-- `replaceAll` when the pattern matches at the head. -/
theorem replaceAll_cons_pos (p r : List Char) (c : Char) (rest : List Char) (hp : p ≠ [])
    (hm : p <+: c :: rest) :
    replaceAll p r (c :: rest) = r ++ replaceAll p r ((c :: rest).drop p.length) := by
  conv_lhs => rw [replaceAll.eq_def]
  rw [dif_neg hp]
  show (if p <+: c :: rest then r ++ replaceAll p r ((c :: rest).drop p.length)
        else c :: replaceAll p r rest) = r ++ replaceAll p r ((c :: rest).drop p.length)
  rw [if_pos hm]

/-- `replaceAll` when the pattern does not match at the head. -/
theorem replaceAll_cons_neg (p r : List Char) (c : Char) (rest : List Char) (hp : p ≠ [])
    (hm : ¬ p <+: c :: rest) :
    replaceAll p r (c :: rest) = c :: replaceAll p r rest := by
  conv_lhs => rw [replaceAll.eq_def]
  rw [dif_neg hp]
  show (if p <+: c :: rest then r ++ replaceAll p r ((c :: rest).drop p.length)
        else c :: replaceAll p r rest) = c :: replaceAll p r rest
  rw [if_neg hm]

/-- An infix of an append lies in the left part, in the right part, or spans
the boundary. -/
theorem infix_append_cases {p x y : List Char} (h : p <:+: x ++ y) :
    p <:+: x ∨ p <:+: y ∨
      ∃ p₁ p₂, p = p₁ ++ p₂ ∧ p₁ ≠ [] ∧ p₂ ≠ [] ∧ p₁ <:+ x ∧ p₂ <+: y := by
  obtain ⟨u, v, huv⟩ := h
  have huv' : u ++ (p ++ v) = x ++ y := by rw [← List.append_assoc]; exact huv
  rcases List.append_eq_append_iff.mp huv' with ⟨a, hx, hpv⟩ | ⟨w, _, hy⟩
  · rcases List.append_eq_append_iff.mp hpv with ⟨b, ha, _⟩ | ⟨e, hpd, hyd⟩
    · left
      exact ⟨u, b, by rw [hx, ha, ← List.append_assoc]⟩
    · by_cases hae : a = []
      · right; left
        subst hae
        have hpe : p = e := by simpa using hpd
        subst hpe
        exact List.IsPrefix.isInfix ⟨v, hyd.symm⟩
      · by_cases hde : e = []
        · left
          subst hde
          have hpa : p = a := by simpa using hpd
          subst hpa
          exact List.IsSuffix.isInfix ⟨u, hx.symm⟩
        · right; right
          exact ⟨a, e, hpd, hae, hde, ⟨u, hx.symm⟩, ⟨v, hyd.symm⟩⟩
  · right; left
    exact ⟨w, v, by rw [hy, ← List.append_assoc]⟩

/-- `replaceAll` is the identity when the pattern does not occur. -/
theorem replaceAll_eq_self_of_no_match (p r : List Char) :
    ∀ s : List Char, ¬ p <:+: s → replaceAll p r s = s := by
  intro s
  induction s with
  | nil =>
    intro h
    exact replaceAll_nil p r (by rintro rfl; exact h List.nil_infix)
  | cons c rest ih =>
    intro h
    have hp : p ≠ [] := by rintro rfl; exact h List.nil_infix
    have hm : ¬ p <+: c :: rest := fun hpre => h ( List.IsPrefix.isInfix hpre)
    rw [replaceAll_cons_neg p r c rest hp hm, ih (fun hi => h ( List.infix_cons hi))]

/-- Core lemma for the optimizer: when pattern `p` and replacement `r` do not
interact (neither occurs in the other, no nonempty suffix of either is a
prefix of the other), the output of `replaceAll p r` contains no occurrence of
`p`; moreover every nonempty suffix of `p` that is a prefix of the output was
already a prefix of the input. -/
theorem replaceAll_no_reintroduce (p r : List Char) (hp : p ≠ [])
    (hpr : ¬ p <:+: r) (hrp : ¬ r <:+: p)
    (hsp : ∀ q ∈ p.tails, q ≠ [] → ¬ q <+: r)
    (hrs : ∀ q ∈ r.tails, q ≠ [] → ¬ q <+: p) :
    ∀ s : List Char,
      (∀ q, q <:+ p → q ≠ [] → q <+: replaceAll p r s → q <+: s) ∧
      ¬ p <:+: replaceAll p r s := by
  suffices H : ∀ n : Nat, ∀ s : List Char, s.length ≤ n →
      (∀ q, q <:+ p → q ≠ [] → q <+: replaceAll p r s → q <+: s) ∧
      ¬ p <:+: replaceAll p r s by
    exact fun s => H s.length s le_rfl
  intro n
  induction n with
  | zero =>
    intro s hs
    obtain rfl : s = [] := List.length_eq_zero.mp (Nat.le_zero.mp hs)
    rw [replaceAll_nil p r hp]
    exact ⟨fun q _ hqne hqp => absurd ( List.prefix_nil.mp hqp) hqne,
           fun hinf => hp ( List.infix_nil.mp hinf)⟩
  | succ n ih =>
    intro s hs
    cases s with
    | nil =>
      rw [replaceAll_nil p r hp]
      exact ⟨fun q _ hqne hqp => absurd ( List.prefix_nil.mp hqp) hqne,
             fun hinf => hp ( List.infix_nil.mp hinf)⟩
    | cons c rest =>
      by_cases hm : p <+: c :: rest
      · rw [replaceAll_cons_pos p r c rest hp hm]
        have hplen : 0 < p.length := List.length_pos.mpr hp
        have hs' : ((c :: rest).drop p.length).length ≤ n := by
          simp only [List.length_drop, List.length_cons]
          simp only [List.length_cons] at hs
          omega
        have IH := ih ((c :: rest).drop p.length) hs'
        constructor
        · intro q hq hqne hqpre
          by_cases hlen : q.length ≤ r.length
          · exact absurd ( List.prefix_of_prefix_length_le hqpre ( List.prefix_append r _) hlen)
              (hsp q (( List.mem_tails q p).mpr hq) hqne)
          · have hrq : r <+: q :=
              List.prefix_of_prefix_length_le ( List.prefix_append r _) hqpre
                (Nat.le_of_lt (Nat.not_le.mp hlen))
            exact absurd (( List.IsPrefix.isInfix hrq).trans ( List.IsSuffix.isInfix hq)) hrp
        · intro hinf
          rcases infix_append_cases hinf with h1 | h2 | ⟨p₁, p₂, hsplit, h1ne, _, h1suf, _⟩
          · exact hpr h1
          · exact IH.2 h2
          · exact hrs p₁ (( List.mem_tails p₁ r).mpr h1suf) h1ne ⟨p₂, hsplit.symm⟩
      · rw [replaceAll_cons_neg p r c rest hp hm]
        have hrest : rest.length ≤ n := by
          simp only [List.length_cons] at hs
          omega
        have IH := ih rest hrest
        constructor
        · intro q hq hqne hqpre
          cases q with
          | nil => exact absurd rfl hqne
          | cons q0 q' =>
            rw [List.cons_prefix_cons] at hqpre
            obtain ⟨hq0, hq'⟩ := hqpre
            by_cases hq'nil : q' = []
            · subst hq'nil
              exact List.cons_prefix_cons.mpr ⟨hq0, List.nil_prefix⟩
            · have hq's : q' <:+ p := by
                obtain ⟨t, ht⟩ := hq
                exact ⟨t ++ [q0], by rw [List.append_assoc]; exact ht⟩
              have hres := IH.1 q' hq's hq'nil hq'
              exact List.cons_prefix_cons.mpr ⟨hq0, hres⟩
        · intro hinf
          rcases List.infix_cons_iff.mp hinf with hpre | hinf'
          · obtain ⟨p0, p'', hpc⟩ : ∃ a l, p = a :: l := by
              cases hpE : p with
              | nil => exact absurd hpE hp
              | cons a l => exact ⟨a, l, rfl⟩
            have hpre' : p0 :: p'' <+: c :: replaceAll p r rest := hpc ▸ hpre
            rw [List.cons_prefix_cons] at hpre'
            obtain ⟨hp0, hp''⟩ := hpre'
            by_cases hpnil : p'' = []
            · apply hm
              rw [hpc, hpnil, hp0]
              exact List.cons_prefix_cons.mpr ⟨rfl, List.nil_prefix⟩
            · have hp''s : p'' <:+ p := ⟨[p0], by simp [hpc]⟩
              have hres := IH.1 p'' hp''s hpnil hp''
              apply hm
              rw [hpc]
              exact List.cons_prefix_cons.mpr ⟨hp0, hres⟩
          · exact IH.2 hinf'

set_option maxRecDepth 4000 in
/-- C8: `optimize_prompt` returns its input byte-identical when
`suggestionCount ≤ 3`; when `suggestionCount > 3` and the verbose instruction
substring is present, the output no longer contains that substring; and on
inputs without the verbose substring the function returns the input unchanged
and is idempotent. -/
theorem c8_optimize_prompt (prompt : String) (n : Nat) :
    (n ≤ 3 → optimize_prompt prompt n = prompt) ∧
    (3 < n → verbose_phrase.data <:+: prompt.data →
      ¬ verbose_phrase.data <:+: (optimize_prompt prompt n).data) ∧
    (¬ verbose_phrase.data <:+: prompt.data →
      optimize_prompt prompt n = prompt ∧
      optimize_prompt (optimize_prompt prompt n) n = optimize_prompt prompt n) := by
  refine ⟨?_, ?_, ?_⟩
  · intro h
    unfold optimize_prompt
    rw [if_neg (by omega)]
  · intro hn _
    unfold optimize_prompt
    rw [if_pos hn]
    show ¬ verbose_phrase.data <:+:
      (replaceAll verbose_phrase.data brief_phrase.data prompt.data)
    exact (replaceAll_no_reintroduce verbose_phrase.data brief_phrase.data
      (by decide) (by decide) (by decide) (by decide) (by decide) prompt.data).2
  · intro hno
    have heq : optimize_prompt prompt n = prompt := by
      unfold optimize_prompt
      by_cases hn : n > 3
      · rw [if_pos hn]
        unfold strReplace
        rw [replaceAll_eq_self_of_no_match verbose_phrase.data brief_phrase.data prompt.data hno]
      · rw [if_neg hn]
    exact ⟨heq, by rw [heq]; exact heq⟩

/-- C8 witness: a concrete prompt containing the verbose phrase, with
`suggestionCount = 5`. -/
theorem c8_witness :
    3 < 5 ∧
    verbose_phrase.data <:+:
      ("Greet them. Add a brief explanation (1 line) after each suggestion about why it works. Thanks" : String).data ∧
    ¬ verbose_phrase.data <:+:
      (optimize_prompt
        "Greet them. Add a brief explanation (1 line) after each suggestion about why it works. Thanks" 5).data :=
  ⟨by decide, by decide,
    (c8_optimize_prompt
      "Greet them. Add a brief explanation (1 line) after each suggestion about why it works. Thanks" 5).2.1
      (by decide) (by decide)⟩

/-! ### The orchestrator's retry loop -/

@[simp] theorem initialAgent_primary_model (ol : Option String) :
    (initialAgent ol).primary_model = "gemini-2.0-flash-exp" := rfl

@[simp] theorem initialAgent_max_retries (ol : Option String) :
    (initialAgent ol).max_retries = 3 := rfl

@[simp] theorem initialAgent_base_delay (ol : Option String) :
    (initialAgent ol).base_delay = 3 := rfl

@[simp] theorem initialAgent_ollama (ol : Option String) :
    (initialAgent ol).ollama_model = ol := rfl

/-- The state returned by the rate gate: the log pruned to the last minute. -/
theorem rate_limit_check_fst (st : AgentState) :
    (rate_limit_check st).1 = { st with request_history := prunedHistory st } := by
  simp only [rate_limit_check]
  split
  next hcond => rfl
  next hcond => rfl

/-- C4: when the cache has no fresh entry for the fingerprint, the rate gate
admits, and the primary provider succeeds on the first attempt with a nonempty
text, `generate_with_retry` returns immediately (no sleeps, clock unchanged)
with the response tagged with the primary model id, appends exactly one
timestamp to the rate log, and creates exactly one cache entry (at the
fingerprint, leaving every other key unchanged). -/
theorem c4_first_attempt_success (md5 : String → String)
    (primary : String → Nat → Except String String)
    (ollamaCall : String → String → Except String String) (ol : Option String)
    (prompt : String) (n : Nat) (st : AgentState) (t : String)
    (hcache : check_cache st (get_cache_key md5 prompt "gemini-2.0-flash-exp" n) = none)
    (hrate : (prunedHistory st).length < 50)
    (hprim : primary (optimize_prompt prompt n) 0 = .ok t)
    (ht : t ≠ "") :
    generate_with_retry (initialAgent ol) md5 primary ollamaCall prompt n st =
      ({ st with
          request_history := prunedHistory st ++ [st.time],
          request_cache := fun k =>
            if k = get_cache_key md5 prompt "gemini-2.0-flash-exp" n then some ⟨t, st.time⟩
            else st.request_cache k,
          primary_calls := st.primary_calls ++ [0] },
       .ok (t, "gemini-2.0-flash-exp")) := by
  have hrl2 : (rate_limit_check st).2 = (true, 0) := rate_limit_check_small st hrate
  have hap : attemptPrimary primary (optimize_prompt prompt n) 0 = .ok t := by
    simp only [attemptPrimary, hprim]
    rw [if_neg ht]
  simp only [generate_with_retry, fallbackStep, initialAgent_primary_model, initialAgent_max_retries,
    hcache, truthyOpt, Bool.false_eq_true, if_false, hrl2, rate_limit_check_fst,
    retryAttempts, hap, log_request, save_to_cache, if_true]

/-- C4 witness: a concrete run where the primary provider answers `"hi"` at
attempt 0 on a fresh session. -/
theorem c4_witness :
    check_cache emptyState (get_cache_key id "p" "gemini-2.0-flash-exp" 3) = none ∧
    (prunedHistory emptyState).length < 50 ∧
    ("hi" : String) ≠ "" ∧
    generate_with_retry (initialAgent none) id (fun _ _ => Except.ok "hi")
        (fun _ _ => Except.error "no ollama") "p" 3 emptyState =
      ({ emptyState with
          request_history := prunedHistory emptyState ++ [emptyState.time],
          request_cache := fun k =>
            if k = get_cache_key id "p" "gemini-2.0-flash-exp" 3 then
              some ⟨"hi", emptyState.time⟩
            else emptyState.request_cache k,
          primary_calls := emptyState.primary_calls ++ [0] },
       .ok ("hi", "gemini-2.0-flash-exp")) :=
  ⟨rfl, by decide, by decide,
    c4_first_attempt_success id (fun _ _ => Except.ok "hi") (fun _ _ => Except.error "no ollama")
      none "p" 3 emptyState "hi" rfl (by decide) rfl (by decide)⟩

/-- Python truthiness on `None`. -/
theorem truthyOpt_none : truthyOpt none = false := rfl

/-- Python truthiness on a string value. -/
theorem truthyOpt_some (s : String) : truthyOpt (some s) = (s != "") := rfl

/-- The three early-retry branches of the source have identical bodies, so the
classification of the message is irrelevant on non-final attempts. -/
theorem if_chain_same {α : Sort u} (c₁ c₂ : Bool) (x : α) :
    (if c₁ then x else if c₂ then x else x) = x := by
  cases c₁ <;> cases c₂ <;> rfl

/-- C3: when the cache misses, the primary provider raises a safety-classified
error on all three attempts, and no fallback model is configured,
`generate_with_retry` raises the safety-specific error after exhausting all
three attempts, writes nothing to the cache, and adds no rate-log entry. -/
theorem c3_safety_blocked_no_fallback (md5 : String → String)
    (primary : String → Nat → Except String String)
    (ollamaCall : String → String → Except String String) (ol : Option String)
    (prompt : String) (n : Nat) (st : AgentState) (msgs : Nat → String)
    (hol : truthyOpt ol = false)
    (hcache : check_cache st (get_cache_key md5 prompt "gemini-2.0-flash-exp" n) = none)
    (herr : ∀ i, i < 3 → primary (optimize_prompt prompt n) i = .error (msgs i))
    (hq : quota_signal (msgs 2) = false)
    (hs : safety_signal (msgs 2) = true) :
    (generate_with_retry (initialAgent ol) md5 primary ollamaCall prompt n st).2 =
      .error "Content blocked by safety filters" ∧
    (generate_with_retry (initialAgent ol) md5 primary ollamaCall prompt n st).1.request_cache
      = st.request_cache ∧
    (generate_with_retry (initialAgent ol) md5 primary ollamaCall prompt n st).1.request_history
      = prunedHistory st ∧
    (generate_with_retry (initialAgent ol) md5 primary ollamaCall prompt n st).1.primary_calls
      = st.primary_calls ++ [0, 1, 2] := by
  have hap : ∀ i, i < 3 → attemptPrimary primary (optimize_prompt prompt n) i
      = .error (msgs i) := by
    intro i hi
    simp only [attemptPrimary, herr i hi]
  cases hb : (rate_limit_check st).2.1 <;>
    simp [generate_with_retry, fallbackStep, initialAgent_primary_model, initialAgent_max_retries,
      initialAgent_ollama, hcache, truthyOpt_none, hb, rate_limit_check_fst, retryAttempts,
      hap 0 (by omega), hap 1 (by omega), hap 2 (by omega), if_chain_same, hq, hs, hol,
      sleepFor]

/-- C3 witness: a provider that always raises a safety-classified message, no
Ollama model bound. -/
theorem c3_witness :
    truthyOpt none = false ∧
    quota_signal "Response blocked by safety" = false ∧
    safety_signal "Response blocked by safety" = true ∧
    ((generate_with_retry (initialAgent none) id
        (fun _ _ => Except.error "Response blocked by safety")
        (fun _ _ => Except.error "x") "p" 3 emptyState).2 =
      .error "Content blocked by safety filters" ∧
    (generate_with_retry (initialAgent none) id
        (fun _ _ => Except.error "Response blocked by safety")
        (fun _ _ => Except.error "x") "p" 3 emptyState).1.request_cache
      = emptyState.request_cache ∧
    (generate_with_retry (initialAgent none) id
        (fun _ _ => Except.error "Response blocked by safety")
        (fun _ _ => Except.error "x") "p" 3 emptyState).1.request_history
      = prunedHistory emptyState ∧
    (generate_with_retry (initialAgent none) id
        (fun _ _ => Except.error "Response blocked by safety")
        (fun _ _ => Except.error "x") "p" 3 emptyState).1.primary_calls
      = emptyState.primary_calls ++ [0, 1, 2]) :=
  ⟨by decide, by decide, by decide,
    c3_safety_blocked_no_fallback id (fun _ _ => Except.error "Response blocked by safety")
      (fun _ _ => Except.error "x") none "p" 3 emptyState
      (fun _ => "Response blocked by safety") (by decide) rfl (fun _ _ => rfl)
      (by decide) (by decide)⟩

/-- C1 (amended): an invalid-credential error raised by the primary provider
is retried like any other error on the two non-final attempts — each preceded
by a backoff sleep of `delay(attempt)` — and only on the final attempt does
the orchestrator classify the message and raise the invalid-API-key error; no
cache write and no rate-log entry occurs. -/
theorem c1_invalid_credential_retried (md5 : String → String)
    (primary : String → Nat → Except String String)
    (ollamaCall : String → String → Except String String) (ol : Option String)
    (prompt : String) (n : Nat) (st : AgentState) (msgs : Nat → String)
    (hcache : check_cache st (get_cache_key md5 prompt "gemini-2.0-flash-exp" n) = none)
    (hrate : (prunedHistory st).length < 50)
    (herr : ∀ i, i < 3 → primary (optimize_prompt prompt n) i = .error (msgs i))
    (hq : quota_signal (msgs 2) = false)
    (hs : safety_signal (msgs 2) = false)
    (hk : apikey_signal (msgs 2) = true) :
    (generate_with_retry (initialAgent ol) md5 primary ollamaCall prompt n st).2 =
      .error "Invalid API key. Please check your Gemini API key." ∧
    (generate_with_retry (initialAgent ol) md5 primary ollamaCall prompt n st).1.sleeps
      = st.sleeps ++ [3, 6] ∧
    (generate_with_retry (initialAgent ol) md5 primary ollamaCall prompt n st).1.request_cache
      = st.request_cache ∧
    (generate_with_retry (initialAgent ol) md5 primary ollamaCall prompt n st).1.request_history
      = prunedHistory st ∧
    (generate_with_retry (initialAgent ol) md5 primary ollamaCall prompt n st).1.primary_calls
      = st.primary_calls ++ [0, 1, 2] := by
  have hrl2 : (rate_limit_check st).2 = (true, 0) := rate_limit_check_small st hrate
  have hap : ∀ i, i < 3 → attemptPrimary primary (optimize_prompt prompt n) i
      = .error (msgs i) := by
    intro i hi
    simp only [attemptPrimary, herr i hi]
  have hb0 : exponential_backoff (initialAgent ol) 0 = 3 := rfl
  have hb1 : exponential_backoff (initialAgent ol) 1 = 6 := rfl
  simp [generate_with_retry, fallbackStep, initialAgent_primary_model, initialAgent_max_retries,
    initialAgent_ollama, hcache, truthyOpt_none, hrl2, rate_limit_check_fst, retryAttempts,
    hap 0 (by omega), hap 1 (by omega), hap 2 (by omega), if_chain_same, hq, hs, hk,
    sleepFor, hb0, hb1]

/-- C1 witness (for the amended claim): a provider that always answers
`"API key not valid"`. -/
theorem c1_witness :
    quota_signal "API key not valid" = false ∧
    safety_signal "API key not valid" = false ∧
    apikey_signal "API key not valid" = true ∧
    ((generate_with_retry (initialAgent none) id (fun _ _ => Except.error "API key not valid")
        (fun _ _ => Except.error "x") "hello" 3 emptyState).2 =
      .error "Invalid API key. Please check your Gemini API key." ∧
    (generate_with_retry (initialAgent none) id (fun _ _ => Except.error "API key not valid")
        (fun _ _ => Except.error "x") "hello" 3 emptyState).1.sleeps
      = emptyState.sleeps ++ [3, 6] ∧
    (generate_with_retry (initialAgent none) id (fun _ _ => Except.error "API key not valid")
        (fun _ _ => Except.error "x") "hello" 3 emptyState).1.request_cache
      = emptyState.request_cache ∧
    (generate_with_retry (initialAgent none) id (fun _ _ => Except.error "API key not valid")
        (fun _ _ => Except.error "x") "hello" 3 emptyState).1.request_history
      = prunedHistory emptyState ∧
    (generate_with_retry (initialAgent none) id (fun _ _ => Except.error "API key not valid")
        (fun _ _ => Except.error "x") "hello" 3 emptyState).1.primary_calls
      = emptyState.primary_calls ++ [0, 1, 2]) :=
  ⟨by decide, by decide, by decide,
    c1_invalid_credential_retried id (fun _ _ => Except.error "API key not valid")
      (fun _ _ => Except.error "x") none "hello" 3 emptyState (fun _ => "API key not valid")
      rfl (by decide) (fun _ _ => rfl) (by decide) (by decide) (by decide)⟩

/-- C1 counterexample: with the primary provider raising an invalid-credential
error from the very first attempt, the orchestrator performs two backoff
sleeps (3 s and 6 s) and calls the provider three times before failing —
refuting the claim that no retry attempt is made and no backoff sleep occurs. -/
theorem c1_counterexample :
    (generate_with_retry (initialAgent none) id (fun _ _ => Except.error "API key not valid")
        (fun _ _ => Except.error "x") "hello" 3 emptyState).1.sleeps = [3, 6] ∧
    (generate_with_retry (initialAgent none) id (fun _ _ => Except.error "API key not valid")
        (fun _ _ => Except.error "x") "hello" 3 emptyState).1.primary_calls = [0, 1, 2] ∧
    (generate_with_retry (initialAgent none) id (fun _ _ => Except.error "API key not valid")
        (fun _ _ => Except.error "x") "hello" 3 emptyState).2 =
      .error "Invalid API key. Please check your Gemini API key." :=
  ⟨rfl, rfl, rfl⟩

/-- C2: when the cache misses, the primary provider raises a quota-classified
error on all three attempts, a (truthy) fallback model is configured, and the
Ollama call returns a nonempty text, `generate_with_retry` returns that text
with the fallback provenance note appended (the text ends with the note), a
source tag containing the fallback identifier, and the rate log gains zero
entries. -/
theorem c2_quota_fallback_success (md5 : String → String)
    (primary : String → Nat → Except String String)
    (ollamaCall : String → String → Except String String) (m : String)
    (prompt : String) (n : Nat) (st : AgentState) (msgs : Nat → String) (ftext : String)
    (hm : m ≠ "")
    (hcache : check_cache st (get_cache_key md5 prompt "gemini-2.0-flash-exp" n) = none)
    (herr : ∀ i, i < 3 → primary (optimize_prompt prompt n) i = .error (msgs i))
    (hq : quota_signal (msgs 2) = true)
    (hfall : ollamaCall m (optimize_prompt prompt n) = .ok ftext)
    (hft : ftext ≠ "") :
    (generate_with_retry (initialAgent (some m)) md5 primary ollamaCall prompt n st).2 =
      .ok (ftext ++ ollama_note, "Ollama (" ++ m ++ ")") ∧
    (generate_with_retry (initialAgent (some m)) md5 primary ollamaCall prompt n
        st).1.request_history = prunedHistory st ∧
    ollama_note.data <:+ (ftext ++ ollama_note).data ∧
    m.data <:+: ("Ollama (" ++ m ++ ")").data := by
  have hap : ∀ i, i < 3 → attemptPrimary primary (optimize_prompt prompt n) i
      = .error (msgs i) := by
    intro i hi
    simp only [attemptPrimary, herr i hi]
  refine ⟨?_, ?_, ⟨ftext.data, by simp⟩, ⟨"Ollama (".data, ")".data, by simp⟩⟩ <;>
    cases hb : (rate_limit_check st).2.1 <;>
      simp [generate_with_retry, fallbackStep, initialAgent_primary_model, initialAgent_max_retries,
        initialAgent_ollama, hcache, truthyOpt_none, truthyOpt_some, hb, rate_limit_check_fst,
        retryAttempts, hap 0 (by omega), hap 1 (by omega), hap 2 (by omega), if_chain_same,
        hq, hm, hfall, hft, sleepFor, save_to_cache]

/-- C2 witness: a provider stuck on quota errors, with a bound Ollama model
that answers. -/
theorem c2_witness :
    ("llama3" : String) ≠ "" ∧
    quota_signal "429 quota exceeded" = true ∧
    ("ok!" : String) ≠ "" ∧
    ((generate_with_retry (initialAgent (some "llama3")) id
        (fun _ _ => Except.error "429 quota exceeded")
        (fun _ _ => Except.ok "ok!") "p" 3 emptyState).2 =
      .ok ("ok!" ++ ollama_note, "Ollama (" ++ "llama3" ++ ")") ∧
    (generate_with_retry (initialAgent (some "llama3")) id
        (fun _ _ => Except.error "429 quota exceeded")
        (fun _ _ => Except.ok "ok!") "p" 3 emptyState).1.request_history
      = prunedHistory emptyState ∧
    ollama_note.data <:+ (("ok!" : String) ++ ollama_note).data ∧
    ("llama3" : String).data <:+: ("Ollama (" ++ "llama3" ++ ")" : String).data) :=
  ⟨by decide, by decide, by decide,
    c2_quota_fallback_success id (fun _ _ => Except.error "429 quota exceeded")
      (fun _ _ => Except.ok "ok!") "llama3" "p" 3 emptyState
      (fun _ => "429 quota exceeded") "ok!" (by decide) rfl (fun _ _ => rfl) (by decide)
      rfl (by decide)⟩

/-- The Ollama source tag always starts with an `'O'`, so it never equals
`"cache"`. -/
theorem ollama_tag_ne_cache (m : String) : ("Ollama (" ++ m ++ ")") ≠ "cache" := by
  intro h
  have h1 : ("Ollama (" ++ m ++ ")").data.head? = some 'O' := rfl
  rw [h] at h1
  exact absurd h1 (by decide)

/-- `fallbackStep` never touches the `primary_calls` trace. -/
theorem fallbackStep_calls (cfg : AgentConfig)
    (ollamaCall : String → String → Except String String) (ck op : String)
    (o : RetryOutcome) :
    (fallbackStep cfg ollamaCall ck op o).1.primary_calls
      = (RetryOutcome.state o).primary_calls := by
  cases o with
  | success st3 result source => rfl
  | raised st3 msg => rfl
  | toFallback st3 le =>
    simp only [fallbackStep, RetryOutcome.state]
    split
    · split
      · split
        · simp [save_to_cache]
        · rfl
      · rfl
    · rfl

/-- `fallbackStep` never returns a result tagged `source = "cache"` (given the
loop only produces successes tagged with the primary model id). -/
theorem fallbackStep_source_not_cache (cfg : AgentConfig)
    (ollamaCall : String → String → Except String String) (ck op : String)
    (o : RetryOutcome)
    (hsuccess : ∀ st' txt src, o = .success st' txt src → src = cfg.primary_model)
    (hpm : cfg.primary_model ≠ "cache") :
    ∀ text, (fallbackStep cfg ollamaCall ck op o).2 ≠ .ok (text, "cache") := by
  intro text h
  cases o with
  | success st3 result source =>
    have hsrc := hsuccess st3 result source rfl
    simp only [fallbackStep, Except.ok.injEq, Prod.mk.injEq] at h
    exact hpm (by rw [← hsrc]; exact h.2)
  | raised st3 msg => simp [fallbackStep] at h
  | toFallback st3 le =>
    simp only [fallbackStep] at h
    split at h
    · split at h
      · split at h
        · simp only [Except.ok.injEq, Prod.mk.injEq] at h
          exact ollama_tag_ne_cache _ h.2
        · simp at h
      · simp at h
    · simp at h

/-- The loop only ever appends to the `primary_calls` trace. -/
theorem retryAttempts_calls_mono (cfg : AgentConfig)
    (primary : String → Nat → Except String String) (ck op : String) :
    ∀ rem att le st, ∃ l,
      ((retryAttempts cfg primary ck op rem att le st).state).primary_calls
        = st.primary_calls ++ l := by
  intro rem
  induction rem with
  | zero =>
    intro att le st
    exact ⟨[], by simp [retryAttempts, RetryOutcome.state]⟩
  | succ rm ih =>
    intro att le st
    cases hap : attemptPrimary primary op att with
    | ok t =>
      exact ⟨[att], by
        simp [retryAttempts, hap, RetryOutcome.state, log_request, save_to_cache]⟩
    | error msg =>
      simp only [retryAttempts, hap, if_chain_same]
      split
      · obtain ⟨l₂, hl₂⟩ := ih (att + 1) (some msg)
          (sleepFor { st with primary_calls := st.primary_calls ++ [att] }
            (exponential_backoff cfg att))
        exact ⟨att :: l₂, by rw [hl₂]; simp [sleepFor]⟩
      · split
        · split
          · exact ⟨[att], by simp [RetryOutcome.state]⟩
          · obtain ⟨l₂, hl₂⟩ := ih (att + 1) (some msg)
              { st with primary_calls := st.primary_calls ++ [att] }
            exact ⟨att :: l₂, by rw [hl₂]; simp⟩
        · split
          · split
            · exact ⟨[att], by simp [RetryOutcome.state]⟩
            · exact ⟨[att], by simp [RetryOutcome.state]⟩
          · split
            · exact ⟨[att], by simp [RetryOutcome.state]⟩
            · obtain ⟨l₂, hl₂⟩ := ih (att + 1) (some msg)
                { st with primary_calls := st.primary_calls ++ [att] }
              exact ⟨att :: l₂, by rw [hl₂]; simp⟩

/-- A nonempty loop always records `att` as its next primary-provider call. -/
theorem retryAttempts_calls_cons (cfg : AgentConfig)
    (primary : String → Nat → Except String String) (ck op : String)
    (rem att : Nat) (le : Option String) (st : AgentState) (hrem : rem ≠ 0) :
    ∃ l, ((retryAttempts cfg primary ck op rem att le st).state).primary_calls
      = st.primary_calls ++ att :: l := by
  cases rem with
  | zero => exact absurd rfl hrem
  | succ rm =>
    cases hap : attemptPrimary primary op att with
    | ok t =>
      exact ⟨[], by
        simp [retryAttempts, hap, RetryOutcome.state, log_request, save_to_cache]⟩
    | error msg =>
      simp only [retryAttempts, hap, if_chain_same]
      split
      · obtain ⟨l₂, hl₂⟩ := retryAttempts_calls_mono cfg primary ck op rm (att + 1) (some msg)
          (sleepFor { st with primary_calls := st.primary_calls ++ [att] }
            (exponential_backoff cfg att))
        exact ⟨l₂, by rw [hl₂]; simp [sleepFor]⟩
      · split
        · split
          · exact ⟨[], by simp [RetryOutcome.state]⟩
          · obtain ⟨l₂, hl₂⟩ := retryAttempts_calls_mono cfg primary ck op rm (att + 1)
              (some msg) { st with primary_calls := st.primary_calls ++ [att] }
            exact ⟨l₂, by rw [hl₂]; simp⟩
        · split
          · split
            · exact ⟨[], by simp [RetryOutcome.state]⟩
            · exact ⟨[], by simp [RetryOutcome.state]⟩
          · split
            · exact ⟨[], by simp [RetryOutcome.state]⟩
            · obtain ⟨l₂, hl₂⟩ := retryAttempts_calls_mono cfg primary ck op rm (att + 1)
                (some msg) { st with primary_calls := st.primary_calls ++ [att] }
              exact ⟨l₂, by rw [hl₂]; simp⟩

/-- Every successful loop outcome is tagged with the primary model id. -/
theorem retryAttempts_success_source (cfg : AgentConfig)
    (primary : String → Nat → Except String String) (ck op : String) :
    ∀ rem att le st st' txt src,
      retryAttempts cfg primary ck op rem att le st = .success st' txt src →
      src = cfg.primary_model := by
  intro rem
  induction rem with
  | zero =>
    intro att le st st' txt src h
    simp [retryAttempts] at h
  | succ rm ih =>
    intro att le st st' txt src h
    cases hap : attemptPrimary primary op att with
    | ok t =>
      simp only [retryAttempts, hap] at h
      injection h with h1 h2 h3
      exact h3.symm
    | error msg =>
      simp only [retryAttempts, hap, if_chain_same] at h
      split at h
      · exact ih _ _ _ _ _ _ h
      · split at h
        · split at h
          · simp at h
          · exact ih _ _ _ _ _ _ h
        · split at h
          · split at h
            · simp at h
            · simp at h
          · split at h
            · simp at h
            · exact ih _ _ _ _ _ _ h

/-- C10: when a fresh cache entry stores the empty string for the request's
fingerprint, `generate_with_retry` sees the hit (`check_cache` returns
`some ""`) but treats it as a miss (Python truthiness), so it goes on to call
the primary provider (attempt 0 is recorded) and never returns a result tagged
`source = "cache"`. -/
theorem c10_empty_cached_hit_treated_as_miss (md5 : String → String)
    (primary : String → Nat → Except String String)
    (ollamaCall : String → String → Except String String) (ol : Option String)
    (prompt : String) (n : Nat) (st : AgentState) (ts : Nat)
    (hentry : st.request_cache (get_cache_key md5 prompt "gemini-2.0-flash-exp" n)
      = some ⟨"", ts⟩)
    (hfresh : st.time - ts < 3600) :
    check_cache st (get_cache_key md5 prompt "gemini-2.0-flash-exp" n) = some "" ∧
    (∃ l, (generate_with_retry (initialAgent ol) md5 primary ollamaCall prompt n
        st).1.primary_calls = st.primary_calls ++ 0 :: l) ∧
    ∀ text, (generate_with_retry (initialAgent ol) md5 primary ollamaCall prompt n st).2
      ≠ .ok (text, "cache") := by
  have hcc : check_cache st (get_cache_key md5 prompt "gemini-2.0-flash-exp" n)
      = some "" := by
    simp [check_cache, hentry, hfresh]
  have hgen : generate_with_retry (initialAgent ol) md5 primary ollamaCall prompt n st =
      fallbackStep (initialAgent ol) ollamaCall
        (get_cache_key md5 prompt "gemini-2.0-flash-exp" n) (optimize_prompt prompt n)
        (retryAttempts (initialAgent ol) primary
          (get_cache_key md5 prompt "gemini-2.0-flash-exp" n) (optimize_prompt prompt n) 3 0
          none (if (rate_limit_check st).2.1 then (rate_limit_check st).1
                else sleepFor (rate_limit_check st).1 (rate_limit_check st).2.2)) := by
    simp [generate_with_retry, initialAgent_primary_model, initialAgent_max_retries, hcc,
      truthyOpt_some]
  refine ⟨hcc, ?_, ?_⟩
  · rw [hgen, fallbackStep_calls]
    obtain ⟨l, hl⟩ := retryAttempts_calls_cons (initialAgent ol) primary
      (get_cache_key md5 prompt "gemini-2.0-flash-exp" n) (optimize_prompt prompt n) 3 0 none
      (if (rate_limit_check st).2.1 then (rate_limit_check st).1
       else sleepFor (rate_limit_check st).1 (rate_limit_check st).2.2) (by omega)
    refine ⟨l, ?_⟩
    rw [hl]
    cases hb : (rate_limit_check st).2.1 <;> simp [hb, rate_limit_check_fst, sleepFor]
  · intro text
    rw [hgen]
    have hpm : (initialAgent ol).primary_model ≠ "cache" := by
      rw [initialAgent_primary_model]
      decide
    refine fallbackStep_source_not_cache (initialAgent ol) ollamaCall _ _ _ ?_ hpm text
    intro st' txt src hsucc
    exact retryAttempts_success_source (initialAgent ol) primary _ _ 3 0 none _ st' txt src
      hsucc

/-- C10 witness: a session caching the empty string for the fingerprint, with
a provider that would answer `"hi"`. -/
theorem c10_witness :
    emptyCachedState.request_cache (get_cache_key id "p" "gemini-2.0-flash-exp" 3)
      = some ⟨"", 0⟩ ∧
    emptyCachedState.time - 0 < 3600 ∧
    (check_cache emptyCachedState (get_cache_key id "p" "gemini-2.0-flash-exp" 3)
      = some "" ∧
    (∃ l, (generate_with_retry (initialAgent none) id (fun _ _ => Except.ok "hi")
        (fun _ _ => Except.error "x") "p" 3 emptyCachedState).1.primary_calls
          = emptyCachedState.primary_calls ++ 0 :: l) ∧
    ∀ text, (generate_with_retry (initialAgent none) id (fun _ _ => Except.ok "hi")
        (fun _ _ => Except.error "x") "p" 3 emptyCachedState).2 ≠ .ok (text, "cache")) :=
  ⟨rfl, by decide,
    c10_empty_cached_hit_treated_as_miss id (fun _ _ => Except.ok "hi")
      (fun _ _ => Except.error "x") none "p" 3 emptyCachedState 0 rfl (by decide)⟩

end TextWiz
